import Mathlib

/-!
Shallow embedding of src/pythontex/pythontex_utils2.py.

The module defines a class PythontexUtils with
  * a pluggable formatter chosen by set_formatter,
  * a lazily created context-aware adapter around the SymPy latex printer
    (init_sympy_latex, set_sympy_latex, _make_sympy_latex, sympy_latex),
  * a macro writer _print_via_macro.

Python values appearing as option values are modelled by Val; a Python dict
keyed by strings is modelled by an insertion-ordered association list, with
extensional equality dictBeq standing for the Python dict equality test.
The dict objects held in self._sympy_latex_settings are modelled by a small
heap (a list of dicts addressed by position) plus a table mapping the style
names to addresses, because the source aliases one dict object between the
styles text, script and scriptscript.  The external renderer
LatexPrinter(settings).doprint(expr) is an abstract parameter
render : Dict -> Val -> String.  Raised Python exceptions are modelled by
PyError values.
-/

/-- A Python value as it occurs in the settings dictionaries: None, a string,
a boolean or an integer. -/
inductive Val where
  | vnone : Val
  | vstr (s : String) : Val
  | vbool (b : Bool) : Val
  | vint (n : Int) : Val
deriving DecidableEq, Repr

/-- A Python dict with string keys, as an insertion-ordered association list. -/
abbrev Dict := List (String × Val)

/-- A raised Python exception, by class and message. -/
inductive PyError where
  | userWarning (msg : String) : PyError
  | typeError (msg : String) : PyError
  | valueError (msg : String) : PyError
  | keyError (key : String) : PyError
deriving DecidableEq, Repr

/-- Python d[k] lookup returning an option: the value at the first matching
key, if any. -/
def dictGet : Dict → String → Option Val
  | [], _ => none
  | p :: rest, key => if p.1 = key then some p.2 else dictGet rest key

/-- The list of keys of a dict. -/
def dictKeys (d : Dict) : List String := d.map Prod.fst

/-- Setting one key of a dict, as Python assignment d[k] = v does: replace
the value at an existing key in place, otherwise append the new pair. -/
def dictInsert : Dict → String → Val → Dict
  | [], key, v => [(key, v)]
  | p :: rest, key, v =>
      if p.1 = key then (key, v) :: rest else p :: dictInsert rest key v

/-- Python d.update(kw): fold the entries of kw into d, the entries of kw
winning at each key. -/
def dictUpdate (d : Dict) (kw : Dict) : Dict :=
  kw.foldl (fun acc p => dictInsert acc p.1 p.2) d

/-- Python dict equality: the same keys carry the same values, regardless of
insertion order. -/
def dictBeq (d1 d2 : Dict) : Bool :=
  (dictKeys d1 ++ dictKeys d2).all (fun k => decide (dictGet d1 k = dictGet d2 k))

/-- First-some choice on option values, used to state the merge semantics. -/
def optOr : Option Val → Option Val → Option Val
  | some v, _ => some v
  | none, b => b

theorem dictGet_eq_none (d : Dict) (k : String) (h : k ∉ dictKeys d) :
    dictGet d k = none := by
  induction d with
  | nil => rfl
  | cons p rest ih =>
    have h1 : ¬(p.1 = k) := by
      intro he
      exact h (by simp [dictKeys, he])
    have h2 : k ∉ dictKeys rest := by
      intro hm
      exact h (by simp [dictKeys] at hm ⊢; exact Or.inr hm)
    simp [dictGet, h1, ih h2]

theorem dictBeq_iff (d1 d2 : Dict) :
    dictBeq d1 d2 = true ↔ ∀ k, dictGet d1 k = dictGet d2 k := by
  unfold dictBeq
  rw [List.all_eq_true]
  constructor
  · intro h k
    by_cases hk : k ∈ dictKeys d1 ++ dictKeys d2
    · exact of_decide_eq_true (h k hk)
    · rw [List.mem_append] at hk
      push_neg at hk
      rw [dictGet_eq_none d1 k hk.1, dictGet_eq_none d2 k hk.2]
  · intro h k _
    exact decide_eq_true (h k)

theorem dictBeq_refl (d : Dict) : dictBeq d d = true :=
  (dictBeq_iff d d).2 (fun _ => rfl)

theorem dictBeq_symm (d1 d2 : Dict) (h : dictBeq d1 d2 = true) :
    dictBeq d2 d1 = true :=
  (dictBeq_iff d2 d1).2 (fun k => ((dictBeq_iff d1 d2).1 h k).symm)

theorem dictBeq_trans (d1 d2 d3 : Dict) (h1 : dictBeq d1 d2 = true)
    (h2 : dictBeq d2 d3 = true) : dictBeq d1 d3 = true :=
  (dictBeq_iff d1 d3).2
    (fun k => Eq.trans ((dictBeq_iff d1 d2).1 h1 k) ((dictBeq_iff d2 d3).1 h2 k))

theorem dictGet_insert (d : Dict) (key : String) (v : Val) (k : String) :
    dictGet (dictInsert d key v) k = if key = k then some v else dictGet d k := by
  induction d with
  | nil =>
    by_cases hk : key = k <;> simp [dictInsert, dictGet, hk]
  | cons p rest ih =>
    by_cases h : p.1 = key
    · by_cases hk : key = k
      · simp [dictInsert, h, dictGet, hk]
      · have hpk : ¬(p.1 = k) := fun he => hk (h ▸ he)
        simp [dictInsert, h, dictGet, hk, hpk]
    · by_cases hpk : p.1 = k
      · have hkk : ¬(key = k) := fun he => h (by rw [hpk, he])
        have hke : ¬(k = key) := fun he => hkk he.symm
        simp [dictInsert, h, dictGet, hpk, hkk, hke]
      · simp [dictInsert, h, dictGet, hpk, ih]

theorem dictUpdate_nil (d : Dict) : dictUpdate d [] = d := rfl

theorem dictGet_update (d ov : Dict) (k : String)
    (h : (ov.map Prod.fst).Nodup) :
    dictGet (dictUpdate d ov) k = optOr (dictGet ov k) (dictGet d k) := by
  induction ov generalizing d with
  | nil => simp [dictUpdate, dictGet, optOr]
  | cons p rest ih =>
    have hstep : dictUpdate d (p :: rest) = dictUpdate (dictInsert d p.1 p.2) rest := rfl
    have hnd : (rest.map Prod.fst).Nodup := (List.nodup_cons.1 h).2
    have hnm : p.1 ∉ rest.map Prod.fst := (List.nodup_cons.1 h).1
    rw [hstep, ih _ hnd, dictGet_insert]
    by_cases hk : p.1 = k
    · have : dictGet rest k = none := by
        apply dictGet_eq_none
        simpa [dictKeys, hk] using hnm
      simp [dictGet, hk, this, optOr]
    · simp [dictGet, hk]

/-- The state behind self._sympy_latex_settings: the dict objects live on a
heap (a list of dicts addressed by position) and the settings table maps each
style name to the address of its dict object.  This keeps the source fact
that the styles text, script and scriptscript share one dict object. -/
structure SLState where
  heap : List Dict
  refs : List (String × Nat)
deriving DecidableEq, Repr

/-- Lookup in the style-name table, Python subscript on the settings dict. -/
def refGet : List (String × Nat) → String → Option Nat
  | [], _ => none
  | p :: rest, key => if p.1 = key then some p.2 else refGet rest key

/-- The dict of settings currently stored for a style name, if any. -/
def getSettings (sl : SLState) (style : String) : Option Dict :=
  match refGet sl.refs style with
  | none => none
  | some a => sl.heap[a]?

/-- Mutation of the dict object at one heap address by d.update(kw). -/
def heapUpdate (sl : SLState) (a : Nat) (kw : Dict) : SLState :=
  { heap := sl.heap.set a (dictUpdate (sl.heap.getD a []) kw), refs := sl.refs }

/-- Allocation of a fresh dict object, as copy.deepcopy followed by update
produces one; the fresh object is appended to the heap and no style name
points at it. -/
def pushCopy (sl : SLState) (d : Dict) : SLState :=
  { heap := sl.heap ++ [d], refs := sl.refs }

/-- The tuple _sympy_styles of the source, in \mathchoice order. -/
def sympyStyles : List String := ["display", "text", "script", "scriptscript"]

/-- Default settings installed for the display style by init_sympy_latex. -/
def displayDefault : Dict := [("mat_str", Val.vstr "pmatrix"), ("mat_delim", Val.vnone)]

/-- Default settings installed for the text style by init_sympy_latex. -/
def textDefault : Dict := [("mat_str", Val.vstr "smallmatrix"), ("mat_delim", Val.vstr "(")]

/-- The settings state created by init_sympy_latex: display owns one dict,
and the single assignment statements
  settings[script] = settings[text] and settings[scriptscript] = settings[text]
make text, script and scriptscript all point at one shared dict object. -/
def defaultSL : SLState :=
  { heap := [displayDefault, textDefault]
  , refs := [("display", 0), ("text", 1), ("script", 1), ("scriptscript", 1)] }

/-- Sequential per-style update used by the sentinel branch for all styles. -/
def updateAllStyles : SLState → List String → Dict → SLState × Option PyError
  | sl, [], _ => (sl, none)
  | sl, s :: rest, kw =>
      match refGet sl.refs s with
      | some a => updateAllStyles (heapUpdate sl a kw) rest kw
      | none => (sl, some (PyError.keyError s))

/-- The closure set_sympy_latex installed by init_sympy_latex: a known style
name updates the dict object that style points at in place; the sentinel
updates every style in turn; any other name raises UserWarning. -/
def set_sympy_latex_real (sl : SLState) (style : String) (kw : Dict) :
    SLState × Option PyError :=
  if style ∈ sympyStyles then
    match refGet sl.refs style with
    | some a => (heapUpdate sl a kw, none)
    | none => (sl, some (PyError.keyError style))
  else if style = "all" then
    updateAllStyles sl sympyStyles kw
  else
    (sl, some (PyError.userWarning ("Unknown LaTeX math style " ++ style)))

/-- The four shapes of the interface built by _make_sympy_latex. -/
inductive Branch where
  | allEmpty : Branch
  | allEqual : Branch
  | displayDiffers : Branch
  | general : Branch
deriving DecidableEq, Repr

/-- Short-circuit evaluation of all(p(settings[s]) for s in styles): a missing
style raises KeyError at its turn, a failing predicate stops the scan. -/
def stylesAll (sl : SLState) : List String → (Dict → Bool) → Except PyError Bool
  | [], _ => Except.ok true
  | s :: rest, p =>
      match getSettings sl s with
      | none => Except.error (PyError.keyError s)
      | some d => if p d then stylesAll sl rest p else Except.ok false

/-- The scenario scan at the top of _make_sympy_latex, deciding which shape
of sympy_latex gets installed: all settings empty, all equal to the display
settings, script and scriptscript equal to the text settings, or the general
shape. -/
def chooseBranch (sl : SLState) : Except PyError Branch :=
  match stylesAll sl sympyStyles (fun d => dictBeq d []) with
  | Except.error e => Except.error e
  | Except.ok true => Except.ok Branch.allEmpty
  | Except.ok false =>
    match getSettings sl "display" with
    | none => Except.error (PyError.keyError "display")
    | some dd =>
      match stylesAll sl sympyStyles (fun d => dictBeq d dd) with
      | Except.error e => Except.error e
      | Except.ok true => Except.ok Branch.allEqual
      | Except.ok false =>
        match getSettings sl "text" with
        | none => Except.error (PyError.keyError "text")
        | some dt =>
          match stylesAll sl ["script", "scriptscript"] (fun d => dictBeq d dt) with
          | Except.error e => Except.error e
          | Except.ok true => Except.ok Branch.displayDiffers
          | Except.ok false => Except.ok Branch.general

/-- The conditional typesetting form returned when the per-style results
disagree. -/
def mathchoice (a b c d : String) : String :=
  "\\mathchoice\x7b" ++ a ++ "\x7d\x7b" ++ b ++ "\x7d\x7b" ++ c ++ "\x7d\x7b" ++ d ++ "\x7d"

/-- One call of the installed sympy_latex closure of the given shape, with
the external renderer passed in as a function.  The result carries the
returned string, the state of the settings heap after the call (the fresh
deepcopy objects are appended) and the trace of settings dicts handed to
LatexPrinter, in call order.  In the general shape with a non-empty override
dict, the source reads the settings key "scripscript" (sic), which raises
KeyError unless such a key exists. -/
def runBranch (render : Dict → Val → String) (b : Branch) (sl : SLState)
    (expr : Val) (ov : Dict) : Except PyError (String × SLState × List Dict) :=
  match b with
  | Branch.allEmpty => Except.ok (render ov expr, sl, [ov])
  | Branch.allEqual =>
    match getSettings sl "display" with
    | none => Except.error (PyError.keyError "display")
    | some dd =>
      if ov = [] then Except.ok (render dd expr, sl, [dd])
      else
        let m := dictUpdate dd ov
        Except.ok (render m expr, pushCopy sl m, [m])
  | Branch.displayDiffers =>
    match getSettings sl "display" with
    | none => Except.error (PyError.keyError "display")
    | some dd =>
      match getSettings sl "text" with
      | none => Except.error (PyError.keyError "text")
      | some dt =>
        if ov = [] then
          let ds := render dd expr
          let ts := render dt expr
          Except.ok (if ds = ts then ds else mathchoice ds ts ts ts, sl, [dd, dt])
        else
          let md := dictUpdate dd ov
          let mt := dictUpdate dt ov
          let ds := render md expr
          let ts := render mt expr
          Except.ok (if ds = ts then ds else mathchoice ds ts ts ts,
            pushCopy (pushCopy sl md) mt, [md, mt])
  | Branch.general =>
    match getSettings sl "display" with
    | none => Except.error (PyError.keyError "display")
    | some dd =>
      match getSettings sl "text" with
      | none => Except.error (PyError.keyError "text")
      | some dt =>
        match getSettings sl "script" with
        | none => Except.error (PyError.keyError "script")
        | some dsc =>
          if ov = [] then
            match getSettings sl "scriptscript" with
            | none => Except.error (PyError.keyError "scriptscript")
            | some dss =>
              let a := render dd expr
              let b := render dt expr
              let c := render dsc expr
              let d := render dss expr
              Except.ok (if a = b ∧ a = c ∧ a = d then a else mathchoice a b c d,
                sl, [dd, dt, dsc, dss])
          else
            let md := dictUpdate dd ov
            let mt := dictUpdate dt ov
            let ms := dictUpdate dsc ov
            match getSettings sl "scripscript" with
            | none => Except.error (PyError.keyError "scripscript")
            | some dss =>
              let mss := dictUpdate dss ov
              let a := render md expr
              let b := render mt expr
              let c := render ms expr
              let d := render mss expr
              Except.ok (if a = b ∧ a = c ∧ a = d then a else mathchoice a b c d,
                pushCopy (pushCopy (pushCopy (pushCopy sl md) mt) ms) mss,
                [md, mt, ms, mss])

/-- A call of sympy_latex on a settings state whose installed closure was
produced by _make_sympy_latex from that same state, as every code path of
the source guarantees (set_sympy_latex re-runs _make_sympy_latex after every
change of settings). -/
def sympy_latex (render : Dict → Val → String) (sl : SLState) (expr : Val)
    (ov : Dict) : Except PyError (String × SLState × List Dict) :=
  match chooseBranch sl with
  | Except.error e => Except.error e
  | Except.ok b => runBranch render b sl expr ov

/-- The function installed as self.formatter: the plain-string coercion, the
identity, the sympy_latex closure of a given shape, or the dummy sympy_latex
(when set_formatter picks the symbolic formatter on an object whose real
closure was never built). -/
inductive Fmtr where
  | pystr : Fmtr
  | identity : Fmtr
  | sympy (b : Branch) : Fmtr
  | sympyDummy : Fmtr
deriving DecidableEq, Repr

/-- The argument handed to set_formatter: a string, or a non-string Python
value carrying only a description. -/
inductive FmtrArg where
  | str (s : String) : FmtrArg
  | nonStr (descr : String) : FmtrArg
deriving DecidableEq, Repr

/-- The state of one PythontexUtils instance: the _sympy_latex_is_init flag,
the settings state once it exists, whether set_sympy_latex still is the dummy,
the shape frozen into the installed sympy_latex closure (none while the dummy
is installed), and the active formatter. -/
structure PytexState where
  is_init : Bool
  sl : Option SLState
  setIsDummy : Bool
  frozenBranch : Option Branch
  formatter : Fmtr
deriving DecidableEq, Repr

/-- The message of the UserWarning raised by both dummy methods. -/
def dummyMsg : String :=
  "Attempt to use sympy_latex before initializing; use method init_sympy_latex()"

/-- Python str coercion of a value, used by the plain-string formatter. -/
def pyStr : Val → String
  | Val.vnone => "None"
  | Val.vstr s => s
  | Val.vbool b => if b then "True" else "False"
  | Val.vint n => toString n

/-- The method init_sympy_latex: a no-op when the flag is already set;
otherwise it sets the flag, creates the default settings state, installs the
real set_sympy_latex, and runs _make_sympy_latex, which freezes the branch
shape computed from the fresh settings into the installed closure. -/
def init_sympy_latex (pt : PytexState) : PytexState × Option PyError :=
  if pt.is_init then (pt, none)
  else
    let pt1 : PytexState :=
      { pt with is_init := true, sl := some defaultSL, setIsDummy := false }
    match chooseBranch defaultSL with
    | Except.ok b => ({ pt1 with frozenBranch := some b }, none)
    | Except.error e => (pt1, some e)

/-- The method set_formatter.  A non-string raises TypeError before anything
changes; the name str installs the string coercion; the name sympy_latex runs
init_sympy_latex and installs the currently bound sympy_latex closure; the
names None, none and identity install the identity formatter; any other
string raises ValueError with a fixed message. -/
def set_formatter (pt : PytexState) (f : FmtrArg) : PytexState × Option PyError :=
  match f with
  | FmtrArg.nonStr _ => (pt, some (PyError.typeError "set_formatter() takes a string argument"))
  | FmtrArg.str s =>
    if s = "str" then ({ pt with formatter := Fmtr.pystr }, none)
    else if s = "sympy_latex" then
      match init_sympy_latex pt with
      | (pt1, some e) => (pt1, some e)
      | (pt1, none) =>
        match pt1.frozenBranch with
        | some b => ({ pt1 with formatter := Fmtr.sympy b }, none)
        | none => ({ pt1 with formatter := Fmtr.sympyDummy }, none)
    else if s = "None" ∨ s = "none" ∨ s = "identity" then
      ({ pt with formatter := Fmtr.identity }, none)
    else
      (pt, some (PyError.valueError "Unsupported formatter type"))

/-- Construction of a PythontexUtils instance: the flag starts false, the
formatter is set from the argument (a failure there aborts construction), and
for any formatter other than sympy_latex the two dummy methods are installed.
The formatter field of the start state is a placeholder: set_formatter either
overwrites it or fails, in which case the state is discarded. -/
def pytexNew (f : FmtrArg) : Except PyError PytexState :=
  let base : PytexState :=
    { is_init := false, sl := none, setIsDummy := true
    , frozenBranch := none, formatter := Fmtr.pystr }
  match set_formatter base f with
  | (_, some e) => Except.error e
  | (pt1, none) =>
    if f = FmtrArg.str "sympy_latex" then Except.ok pt1
    else Except.ok { pt1 with setIsDummy := true, frozenBranch := none }

/-- The TypeError message of CPython 2 for a call of the dummy
_dummy_set_sympy_latex, which accepts no arguments beyond self, with one
positional argument and the given number of keyword arguments. -/
def dummySetArityMsg (kwCount : Nat) : String :=
  "_dummy_set_sympy_latex() takes exactly 1 argument (" ++ toString (2 + kwCount) ++ " given)"

/-- A call self.set_sympy_latex(style, **kw).  While the dummy is installed
the call fails at argument binding with TypeError, because the dummy accepts
no arguments beyond self; the UserWarning in its body is never reached for a
styled call.  With the real closure installed, the settings are updated and
_make_sympy_latex re-freezes the branch shape. -/
def call_set (pt : PytexState) (style : String) (kw : Dict) :
    PytexState × Option PyError :=
  if pt.setIsDummy then
    (pt, some (PyError.typeError (dummySetArityMsg kw.length)))
  else
    match pt.sl with
    | none => (pt, some (PyError.keyError "settings"))
    | some sl =>
      match set_sympy_latex_real sl style kw with
      | (sl1, some e) => ({ pt with sl := some sl1 }, some e)
      | (sl1, none) =>
        match chooseBranch sl1 with
        | Except.ok b => ({ pt with sl := some sl1, frozenBranch := some b }, none)
        | Except.error e => ({ pt with sl := some sl1 }, some e)

/-- A call self.sympy_latex(expr, **ov).  While the dummy is installed the
call raises the UserWarning instructing the caller to run init_sympy_latex;
with a real closure installed the frozen branch shape runs on the current
settings state. -/
def call_render (render : Dict → Val → String) (pt : PytexState) (expr : Val)
    (ov : Dict) : PytexState × Except PyError String :=
  match pt.frozenBranch with
  | none => (pt, Except.error (PyError.userWarning dummyMsg))
  | some b =>
    match pt.sl with
    | none => (pt, Except.error (PyError.keyError "settings"))
    | some sl =>
      match runBranch render b sl expr ov with
      | Except.ok (r, sl1, _) => ({ pt with sl := some sl1 }, Except.ok r)
      | Except.error e => (pt, Except.error e)

/-- A call self.formatter(expr) with the active formatter.  The sympy shapes
run with an empty override dict, which allocates nothing, so the settings
state is unchanged and only the string is returned. -/
def runFormatter (render : Dict → Val → String) (pt : PytexState) (v : Val) :
    Except PyError Val :=
  match pt.formatter with
  | Fmtr.pystr => Except.ok (Val.vstr (pyStr v))
  | Fmtr.identity => Except.ok v
  | Fmtr.sympyDummy => Except.error (PyError.userWarning dummyMsg)
  | Fmtr.sympy b =>
    match pt.sl with
    | none => Except.error (PyError.keyError "settings")
    | some sl =>
      match runBranch render b sl v [] with
      | Except.ok (r, _, _) => Except.ok (Val.vstr r)
      | Except.error e => Except.error e

/-- The method _print_via_macro: build the opening text from the position
fields, format the value with the active formatter, and return the block that
is written to the macro file.  Concatenation with a non-string formatter
result raises TypeError, as the Python + on str does. -/
def print_via_macro_block (render : Dict → Val → String) (pt : PytexState)
    (inputtype inputsession inputgroup inputinstance : String) (expr : Val) :
    Except PyError String :=
  let before := "\\expandafter\\long\\expandafter\\def\\csname pytx@MCR@"
      ++ inputtype ++ "@" ++ inputsession ++ "@" ++ inputgroup ++ "@"
      ++ inputinstance ++ "\\endcsname\x7b"
  let after := "\x7d\n\n"
  match runFormatter render pt expr with
  | Except.error e => Except.error e
  | Except.ok (Val.vstr s) => Except.ok (before ++ s ++ after)
  | Except.ok _ => Except.error (PyError.typeError "cannot concatenate str and non-str objects")

/-- The instance produced by PythontexUtils() with the default formatter str:
dummies installed, settings absent. -/
def ptStr : PytexState :=
  { is_init := false, sl := none, setIsDummy := true
  , frozenBranch := none, formatter := Fmtr.pystr }

/-- The instance produced by PythontexUtils with the sympy_latex formatter,
equally the state of any instance right after its first init_sympy_latex:
default settings, real methods installed, the frozen shape being the one
where only the display settings differ. -/
def ptSympy : PytexState :=
  { is_init := true, sl := some defaultSL, setIsDummy := false
  , frozenBranch := some Branch.displayDiffers, formatter := Fmtr.sympy Branch.displayDiffers }

theorem pytexNew_str : pytexNew (FmtrArg.str "str") = Except.ok ptStr := rfl

theorem pytexNew_sympy : pytexNew (FmtrArg.str "sympy_latex") = Except.ok ptSympy := rfl

theorem chooseBranch_defaultSL : chooseBranch defaultSL = Except.ok Branch.displayDiffers := rfl

/-- C1: the claim says an update of one style changes only the settings of
that style.  Evaluating the code at an initialized instance: the call
set_sympy_latex("script", mat_str="bmatrix") succeeds, and afterwards the
stored settings of the styles text and scriptscript carry mat_str bmatrix as
well, although before the call text stored mat_str smallmatrix — the three
styles share one dict object, so the single-style update is not confined to
the named style. -/
theorem c1_shared_settings_eval :
    (call_set ptSympy "script" [("mat_str", Val.vstr "bmatrix")]).2 = none
    ∧ getSettings ((call_set ptSympy "script" [("mat_str", Val.vstr "bmatrix")]).1.sl.getD defaultSL) "text"
        = some [("mat_str", Val.vstr "bmatrix"), ("mat_delim", Val.vstr "(")]
    ∧ getSettings ((call_set ptSympy "script" [("mat_str", Val.vstr "bmatrix")]).1.sl.getD defaultSL) "scriptscript"
        = some [("mat_str", Val.vstr "bmatrix"), ("mat_delim", Val.vstr "(")]
    ∧ getSettings defaultSL "text"
        = some [("mat_str", Val.vstr "smallmatrix"), ("mat_delim", Val.vstr "(")] :=
  ⟨rfl, rfl, rfl, rfl⟩

/-- C6: on an instance built with a non-symbolic formatter, a styled call of
the settings-update method fails, but with a TypeError at argument binding
(the dummy accepts no arguments), not with the UserWarning instructing the
caller to run init_sympy_latex; the render method does raise exactly that
UserWarning. -/
theorem c6_dummy_interface_eval :
    call_set ptStr "display" [("mat_str", Val.vstr "bmatrix")]
      = (ptStr, some (PyError.typeError (dummySetArityMsg 1)))
    ∧ ∀ (render : Dict → Val → String) (expr : Val) (ov : Dict),
        call_render render ptStr expr ov = (ptStr, Except.error (PyError.userWarning dummyMsg)) :=
  ⟨rfl, fun _ _ _ => rfl⟩

/-- C9: init_sympy_latex on an already initialized instance is a no-op: the
state, including settings, installed update method and installed render
closure, is returned unchanged and nothing is raised. -/
theorem c9_init_idempotent (pt : PytexState) (h : pt.is_init = true) :
    init_sympy_latex pt = (pt, none) := by
  simp [init_sympy_latex, h]

theorem c9_init_idempotent_witness : init_sympy_latex ptSympy = (ptSympy, none) :=
  c9_init_idempotent ptSympy rfl

/-- C10: each of the names None, none and identity selects the identity
formatter, and formatting any value with it returns the value unchanged. -/
theorem c10_identity_names (pt : PytexState) (name : String)
    (h : name = "None" ∨ name = "none" ∨ name = "identity") :
    (set_formatter pt (FmtrArg.str name)).2 = none
    ∧ (set_formatter pt (FmtrArg.str name)).1.formatter = Fmtr.identity
    ∧ ∀ (render : Dict → Val → String) (v : Val),
        runFormatter render (set_formatter pt (FmtrArg.str name)).1 v = Except.ok v := by
  rcases h with h | h | h <;> subst h <;> exact ⟨rfl, rfl, fun _ _ => rfl⟩

theorem c10_identity_names_witness :
    (set_formatter ptStr (FmtrArg.str "none")).2 = none
    ∧ runFormatter (fun _ _ => "") (set_formatter ptStr (FmtrArg.str "none")).1 (Val.vint 7)
        = Except.ok (Val.vint 7) :=
  ⟨(c10_identity_names ptStr "none" (Or.inr (Or.inl rfl))).1,
   (c10_identity_names ptStr "none" (Or.inr (Or.inl rfl))).2.2 (fun _ _ => "") (Val.vint 7)⟩

/-- C7 counterexample: two distinct unsupported formatter names fail with the
same fixed ValueError message, so the message does not name the unsupported
formatter as the claim states. -/
theorem c7_generic_error_message :
    set_formatter ptStr (FmtrArg.str "foo")
      = (ptStr, some (PyError.valueError "Unsupported formatter type"))
    ∧ set_formatter ptStr (FmtrArg.str "bar")
      = (ptStr, some (PyError.valueError "Unsupported formatter type")) :=
  ⟨rfl, rfl⟩

/-- C7 amended: a non-string argument fails with TypeError, and a string
outside the five supported names fails with ValueError carrying the fixed
message Unsupported formatter type; in both cases the state, hence the active
formatter, is returned unchanged. -/
theorem c7_selector_failures (pt : PytexState) (f : FmtrArg) :
    (∀ descr, f = FmtrArg.nonStr descr →
        set_formatter pt f = (pt, some (PyError.typeError "set_formatter() takes a string argument")))
    ∧ (∀ s, f = FmtrArg.str s → ¬(s = "str") → ¬(s = "sympy_latex") →
        ¬(s = "None") → ¬(s = "none") → ¬(s = "identity") →
        set_formatter pt f = (pt, some (PyError.valueError "Unsupported formatter type"))) := by
  constructor
  · intro descr h
    subst h
    rfl
  · intro s h h1 h2 h3 h4 h5
    subst h
    simp [set_formatter, h1, h2, h3, h4, h5]

theorem c7_selector_failures_witness :
    set_formatter ptStr (FmtrArg.nonStr "42")
      = (ptStr, some (PyError.typeError "set_formatter() takes a string argument"))
    ∧ set_formatter ptStr (FmtrArg.str "foo")
      = (ptStr, some (PyError.valueError "Unsupported formatter type")) :=
  ⟨(c7_selector_failures ptStr (FmtrArg.nonStr "42")).1 "42" rfl,
   (c7_selector_failures ptStr (FmtrArg.str "foo")).2 "foo" rfl
     (by decide) (by decide) (by decide) (by decide) (by decide)⟩

/-- C3 counterexample: with the plain-string formatter, the block written for
PositionKey (c, default, 0, 3) and value 42 starts with the definition text
expandafter long expandafter def, so it differs from the block the claim
states. -/
theorem c3_block_counterexample :
    print_via_macro_block (fun _ _ => "") ptStr "c" "default" "0" "3" (Val.vstr "42")
      = Except.ok "\\expandafter\\long\\expandafter\\def\\csname pytx@MCR@c@default@0@3\\endcsname\x7b42\x7d\n\n"
    ∧ ¬("\\expandafter\\long\\expandafter\\def\\csname pytx@MCR@c@default@0@3\\endcsname\x7b42\x7d\n\n"
        = "\\csname pytx@MCR@c@default@0@3\\endcsname\x7b42\x7d\n\n") :=
  ⟨rfl, by decide⟩

/-- C3 amended: the written block is the macro-name opening
expandafter long expandafter def csname pytx@MCR@ followed by the name
kind@session@group@instance, then endcsname, an opening brace, the formatted
text, a closing brace and two newlines. -/
theorem c3_macro_block (render : Dict → Val → String) (pt : PytexState)
    (k sess g i : String) (v : Val) (body : String)
    (h : runFormatter render pt v = Except.ok (Val.vstr body)) :
    print_via_macro_block render pt k sess g i v
      = Except.ok ("\\expandafter\\long\\expandafter\\def\\csname pytx@MCR@"
          ++ k ++ "@" ++ sess ++ "@" ++ g ++ "@" ++ i ++ "\\endcsname\x7b"
          ++ body ++ "\x7d\n\n") := by
  simp [print_via_macro_block, h]

theorem c3_macro_block_witness :
    print_via_macro_block (fun _ _ => "") ptStr "c" "default" "0" "3" (Val.vstr "42")
      = Except.ok ("\\expandafter\\long\\expandafter\\def\\csname pytx@MCR@"
          ++ "c" ++ "@" ++ "default" ++ "@" ++ "0" ++ "@" ++ "3" ++ "\\endcsname\x7b"
          ++ "42" ++ "\x7d\n\n") :=
  c3_macro_block (fun _ _ => "") ptStr "c" "default" "0" "3" (Val.vstr "42") "42" rfl

/-- A settings state of the general kind: four pairwise different, non-empty
dicts, one per style, no sharing.  Such a state satisfies the hypotheses of
the general branch of _make_sympy_latex. -/
def generalSL : SLState :=
  { heap := [[("mat_str", Val.vstr "pmatrix")], [("mat_str", Val.vstr "smallmatrix")],
             [("mat_str", Val.vstr "matrix")], [("mat_str", Val.vstr "array")]]
  , refs := [("display", 0), ("text", 1), ("script", 2), ("scriptscript", 3)] }

/-- A non-empty override dict handed to a render call. -/
def ovParen : Dict := [("mat_delim", Val.vstr "(")]

/-- A concrete renderer for witnesses: the printed expression together with
the mat_str option of the settings in force, so different settings give
different output. -/
def renderProbe (d : Dict) (e : Val) : String :=
  pyStr e ++ ":" ++ (match dictGet d "mat_str" with
    | some (Val.vstr s) => s
    | _ => "?")

/-- The general branch as the spec states its intent: the fourth settings
copy is taken from the scriptscript entry, where the source reads the
misspelled key scripscript instead.  Everything else follows the source. -/
def runGeneralIntended (render : Dict → Val → String) (sl : SLState)
    (expr : Val) (ov : Dict) : Except PyError (String × SLState × List Dict) :=
  match getSettings sl "display" with
  | none => Except.error (PyError.keyError "display")
  | some dd =>
    match getSettings sl "text" with
    | none => Except.error (PyError.keyError "text")
    | some dt =>
      match getSettings sl "script" with
      | none => Except.error (PyError.keyError "script")
      | some dsc =>
        match getSettings sl "scriptscript" with
        | none => Except.error (PyError.keyError "scriptscript")
        | some dss =>
          if ov = [] then
            let a := render dd expr
            let b := render dt expr
            let c := render dsc expr
            let d := render dss expr
            Except.ok (if a = b ∧ a = c ∧ a = d then a else mathchoice a b c d,
              sl, [dd, dt, dsc, dss])
          else
            let md := dictUpdate dd ov
            let mt := dictUpdate dt ov
            let ms := dictUpdate dsc ov
            let mss := dictUpdate dss ov
            let a := render md expr
            let b := render mt expr
            let c := render ms expr
            let d := render mss expr
            Except.ok (if a = b ∧ a = c ∧ a = d then a else mathchoice a b c d,
              pushCopy (pushCopy (pushCopy (pushCopy sl md) mt) ms) mss,
              [md, mt, ms, mss])

/-- C2: on a general-kind settings state with a non-empty override dict, the
adapter of the source raises KeyError for the misspelled settings key
scripscript, for every renderer and every expression, instead of copying the
scriptscript settings; the branch as intended by the spec renders four times,
one copy per style merged with the overrides, and returns the four-way
conditional form when the results differ. -/
theorem c2_scripscript_typo :
    (∀ (render : Dict → Val → String) (expr : Val),
        sympy_latex render generalSL expr ovParen = Except.error (PyError.keyError "scripscript"))
    ∧ (runGeneralIntended renderProbe generalSL (Val.vstr "x") ovParen).map
        (fun r => (r.1, r.2.2))
      = Except.ok (mathchoice "x:pmatrix" "x:smallmatrix" "x:matrix" "x:array",
          [dictUpdate [("mat_str", Val.vstr "pmatrix")] ovParen,
           dictUpdate [("mat_str", Val.vstr "smallmatrix")] ovParen,
           dictUpdate [("mat_str", Val.vstr "matrix")] ovParen,
           dictUpdate [("mat_str", Val.vstr "array")] ovParen]) :=
  ⟨fun _ _ => rfl, rfl⟩

theorem chooseBranch_displayDiffers_of (sl : SLState) (dd dt dsc dss : Dict)
    (hd : getSettings sl "display" = some dd) (ht : getSettings sl "text" = some dt)
    (hs : getSettings sl "script" = some dsc) (hss : getSettings sl "scriptscript" = some dss)
    (h1 : dictBeq dsc dt = true) (h2 : dictBeq dss dt = true)
    (h3 : dictBeq dd dt = false) :
    chooseBranch sl = Except.ok Branch.displayDiffers := by
  have hddt : ¬(dictBeq dd dt = true) := by simp [h3]
  have hc1 : stylesAll sl sympyStyles (fun d => dictBeq d []) = Except.ok false := by
    cases he : dictBeq dd [] with
    | false => simp [stylesAll, sympyStyles, hd, he]
    | true =>
      have hte : dictBeq dt [] = false := by
        cases hq : dictBeq dt [] with
        | false => rfl
        | true => exact absurd (dictBeq_trans dd [] dt he (dictBeq_symm dt [] hq)) hddt
      simp [stylesAll, sympyStyles, hd, ht, he, hte]
  have htd : dictBeq dt dd = false := by
    cases hq : dictBeq dt dd with
    | false => rfl
    | true => exact absurd (dictBeq_symm dt dd hq) hddt
  have hc2 : stylesAll sl sympyStyles (fun d => dictBeq d dd) = Except.ok false := by
    simp [stylesAll, sympyStyles, hd, ht, dictBeq_refl, htd]
  have hc3 : stylesAll sl ["script", "scriptscript"] (fun d => dictBeq d dt) = Except.ok true := by
    simp [stylesAll, hs, hss, h1, h2]
  simp [chooseBranch, hc1, hd, hc2, ht, hc3]

theorem sympy_latex_eq (render : Dict → Val → String) (sl : SLState) (expr : Val)
    (ov : Dict) (b : Branch) (h : chooseBranch sl = Except.ok b) :
    sympy_latex render sl expr ov = runBranch render b sl expr ov := by
  unfold sympy_latex
  rw [h]

/-- C4: whenever the stored script and scriptscript settings equal the text
settings while the display settings differ from the text settings, a render
call hands the renderer exactly two settings dicts, the display and the text
settings each merged with the overrides, and returns the single string when
the two results agree, else the four-way conditional form with the text
result in the three lower slots. -/
theorem c4_display_differs (render : Dict → Val → String) (sl : SLState)
    (expr : Val) (ov : Dict) (dd dt dsc dss : Dict)
    (hd : getSettings sl "display" = some dd) (ht : getSettings sl "text" = some dt)
    (hs : getSettings sl "script" = some dsc) (hss : getSettings sl "scriptscript" = some dss)
    (h1 : dictBeq dsc dt = true) (h2 : dictBeq dss dt = true)
    (h3 : dictBeq dd dt = false) :
    sympy_latex render sl expr ov
      = Except.ok
          (if render (dictUpdate dd ov) expr = render (dictUpdate dt ov) expr
             then render (dictUpdate dd ov) expr
             else mathchoice (render (dictUpdate dd ov) expr)
                    (render (dictUpdate dt ov) expr)
                    (render (dictUpdate dt ov) expr)
                    (render (dictUpdate dt ov) expr),
           if ov = [] then sl
             else pushCopy (pushCopy sl (dictUpdate dd ov)) (dictUpdate dt ov),
           [dictUpdate dd ov, dictUpdate dt ov]) := by
  rw [sympy_latex_eq render sl expr ov Branch.displayDiffers
    (chooseBranch_displayDiffers_of sl dd dt dsc dss hd ht hs hss h1 h2 h3)]
  by_cases hov : ov = []
  · subst hov
    simp [runBranch, hd, ht, dictUpdate_nil]
  · simp [runBranch, hd, ht, hov]

theorem c4_display_differs_witness :
    sympy_latex renderProbe defaultSL (Val.vstr "x") []
      = Except.ok
          (if renderProbe (dictUpdate displayDefault []) (Val.vstr "x")
                = renderProbe (dictUpdate textDefault []) (Val.vstr "x")
             then renderProbe (dictUpdate displayDefault []) (Val.vstr "x")
             else mathchoice (renderProbe (dictUpdate displayDefault []) (Val.vstr "x"))
                    (renderProbe (dictUpdate textDefault []) (Val.vstr "x"))
                    (renderProbe (dictUpdate textDefault []) (Val.vstr "x"))
                    (renderProbe (dictUpdate textDefault []) (Val.vstr "x")),
           if ([] : Dict) = [] then defaultSL
             else pushCopy (pushCopy defaultSL (dictUpdate displayDefault []))
                    (dictUpdate textDefault []),
           [dictUpdate displayDefault [], dictUpdate textDefault []]) :=
  c4_display_differs renderProbe defaultSL (Val.vstr "x") [] displayDefault textDefault
    textDefault textDefault rfl rfl rfl rfl (dictBeq_refl textDefault)
    (dictBeq_refl textDefault) (by decide)

/-- Well-formed settings state: every style entry points at a live heap
address.  Every state the source can reach satisfies this. -/
def WFS (sl : SLState) : Prop := ∀ p ∈ sl.refs, p.2 < sl.heap.length

theorem refGet_mem (refs : List (String × Nat)) (s : String) (a : Nat)
    (h : refGet refs s = some a) : (s, a) ∈ refs := by
  induction refs with
  | nil => simp [refGet] at h
  | cons p rest ih =>
    by_cases hp : p.1 = s
    · simp [refGet, hp] at h
      cases p with
      | mk p1 p2 =>
        simp at hp
        subst hp
        simp at h
        subst h
        exact List.mem_cons_self _ _
    · simp [refGet, hp] at h
      exact List.mem_cons_of_mem _ (ih h)

theorem getSettings_pushCopy (sl : SLState) (d : Dict) (style : String)
    (h : WFS sl) : getSettings (pushCopy sl d) style = getSettings sl style := by
  unfold getSettings pushCopy
  cases hr : refGet sl.refs style with
  | none => simp [hr]
  | some a =>
    have ha : a < sl.heap.length := h (style, a) (refGet_mem sl.refs style a hr)
    simp [hr]
    exact List.getElem?_append_left ha

theorem WFS_pushCopy (sl : SLState) (d : Dict) (h : WFS sl) :
    WFS (pushCopy sl d) := by
  intro p hp
  have h1 := h p hp
  show p.2 < (sl.heap ++ [d]).length
  rw [List.length_append]
  exact Nat.lt_of_lt_of_le h1 (Nat.le_add_right _ _)

theorem pushCopy_preserves (sl : SLState) (d : Dict) (h : WFS sl) :
    (∀ style, getSettings (pushCopy sl d) style = getSettings sl style)
    ∧ WFS (pushCopy sl d) :=
  ⟨fun style => getSettings_pushCopy sl d style h, WFS_pushCopy sl d h⟩

/-- One render call changes no stored style settings: the branches either
keep the state or only append fresh copy objects no style points at. -/
theorem sympy_latex_preserves (render : Dict → Val → String) (sl : SLState)
    (expr : Val) (ov : Dict) (r : String) (sl2 : SLState) (tr : List Dict)
    (hw : WFS sl)
    (hok : sympy_latex render sl expr ov = Except.ok (r, sl2, tr)) :
    (∀ style, getSettings sl2 style = getSettings sl style) ∧ WFS sl2 := by
  unfold sympy_latex at hok
  cases hcb : chooseBranch sl with
  | error e => rw [hcb] at hok; simp at hok
  | ok b =>
    rw [hcb] at hok
    cases b with
    | allEmpty =>
      simp [runBranch] at hok
      obtain ⟨-, hsl, -⟩ := hok
      subst hsl
      exact ⟨fun _ => rfl, hw⟩
    | allEqual =>
      simp only [runBranch] at hok
      cases hgd : getSettings sl "display" with
      | none => rw [hgd] at hok; simp at hok
      | some dd =>
        rw [hgd] at hok
        by_cases hov : ov = []
        · simp [hov] at hok
          obtain ⟨-, hsl, -⟩ := hok
          subst hsl
          exact ⟨fun _ => rfl, hw⟩
        · simp [hov] at hok
          obtain ⟨-, hsl, -⟩ := hok
          subst hsl
          exact pushCopy_preserves sl _ hw
    | displayDiffers =>
      simp only [runBranch] at hok
      cases hgd : getSettings sl "display" with
      | none => rw [hgd] at hok; simp at hok
      | some dd =>
        rw [hgd] at hok
        cases hgt : getSettings sl "text" with
        | none => rw [hgt] at hok; simp at hok
        | some dt =>
          rw [hgt] at hok
          by_cases hov : ov = []
          · simp [hov] at hok
            obtain ⟨-, hsl, -⟩ := hok
            subst hsl
            exact ⟨fun _ => rfl, hw⟩
          · simp [hov] at hok
            obtain ⟨-, hsl, -⟩ := hok
            subst hsl
            have p1 := pushCopy_preserves sl (dictUpdate dd ov) hw
            have p2 := pushCopy_preserves (pushCopy sl (dictUpdate dd ov)) (dictUpdate dt ov) p1.2
            exact ⟨fun style => (p2.1 style).trans (p1.1 style), p2.2⟩
    | general =>
      simp only [runBranch] at hok
      cases hgd : getSettings sl "display" with
      | none => rw [hgd] at hok; simp at hok
      | some dd =>
        rw [hgd] at hok
        cases hgt : getSettings sl "text" with
        | none => rw [hgt] at hok; simp at hok
        | some dt =>
          rw [hgt] at hok
          cases hgs : getSettings sl "script" with
          | none => rw [hgs] at hok; simp at hok
          | some dsc =>
            rw [hgs] at hok
            by_cases hov : ov = []
            · cases hgss : getSettings sl "scriptscript" with
              | none => rw [hgss] at hok; simp [hov] at hok
              | some dss =>
                rw [hgss] at hok
                simp [hov] at hok
                obtain ⟨-, hsl, -⟩ := hok
                subst hsl
                exact ⟨fun _ => rfl, hw⟩
            · cases hgss : getSettings sl "scripscript" with
              | none => rw [hgss] at hok; simp [hov] at hok
              | some dss =>
                rw [hgss] at hok
                simp [hov] at hok
                obtain ⟨-, hsl, -⟩ := hok
                subst hsl
                have p1 := pushCopy_preserves sl (dictUpdate dd ov) hw
                have p2 := pushCopy_preserves _ (dictUpdate dt ov) p1.2
                have p3 := pushCopy_preserves _ (dictUpdate dsc ov) p2.2
                have p4 := pushCopy_preserves _ (dictUpdate dss ov) p3.2
                exact ⟨fun style =>
                  ((((p4.1 style).trans (p3.1 style)).trans (p2.1 style)).trans (p1.1 style)),
                  p4.2⟩

/-- A sequence of render calls, each on the settings state the previous call
left behind. -/
def renderCalls (render : Dict → Val → String) : SLState → List (Val × Dict) → Except PyError SLState
  | sl, [] => Except.ok sl
  | sl, c :: rest =>
    match sympy_latex render sl c.1 c.2 with
    | Except.error e => Except.error e
    | Except.ok (_, sl1, _) => renderCalls render sl1 rest

/-- C8: a render call merges the overrides into a copy of the stored settings
of each style it touches, the overrides winning key by key, and any number of
render calls with any overrides leaves every stored style setting exactly as
it was. -/
theorem c8_no_mutation :
    (∀ (d ov : Dict) (k : String), (ov.map Prod.fst).Nodup →
        dictGet (dictUpdate d ov) k = optOr (dictGet ov k) (dictGet d k))
    ∧ (∀ (render : Dict → Val → String) (calls : List (Val × Dict)) (sl sl2 : SLState),
        WFS sl → renderCalls render sl calls = Except.ok sl2 →
        ∀ style, getSettings sl2 style = getSettings sl style) := by
  constructor
  · exact fun d ov k h => dictGet_update d ov k h
  · intro render calls
    induction calls with
    | nil =>
      intro sl sl2 hw hok style
      simp [renderCalls] at hok
      subst hok
      rfl
    | cons c rest ih =>
      intro sl sl2 hw hok style
      simp only [renderCalls] at hok
      cases hc : sympy_latex render sl c.1 c.2 with
      | error e => rw [hc] at hok; simp at hok
      | ok val =>
        obtain ⟨r1, sl1, tr1⟩ := val
        rw [hc] at hok
        have hp := sympy_latex_preserves render sl c.1 c.2 r1 sl1 tr1 hw hc
        have hrest := ih sl1 sl2 hp.2 hok style
        rw [hrest, hp.1 style]

theorem c8_no_mutation_witness :
    dictGet (dictUpdate displayDefault ovParen) "mat_delim"
      = optOr (dictGet ovParen "mat_delim") (dictGet displayDefault "mat_delim")
    ∧ getSettings (pushCopy (pushCopy defaultSL (dictUpdate displayDefault ovParen))
        (dictUpdate textDefault ovParen)) "text" = getSettings defaultSL "text" :=
  ⟨c8_no_mutation.1 displayDefault ovParen "mat_delim" (by decide),
   c8_no_mutation.2 renderProbe [(Val.vstr "x", ovParen)] defaultSL
     (pushCopy (pushCopy defaultSL (dictUpdate displayDefault ovParen))
       (dictUpdate textDefault ovParen))
     (by unfold WFS; decide) rfl "text"⟩

/-- C5: whenever a render call succeeds and the renderings of all settings
dicts handed to the renderer during the call agree, the returned string is
that single rendering, taken from the first settings dict of the call, and no
conditional form is built. -/
theorem c5_identical_renderings (render : Dict → Val → String) (sl : SLState)
    (expr : Val) (ov : Dict) (r : String) (sl2 : SLState) (tr : List Dict)
    (hok : sympy_latex render sl expr ov = Except.ok (r, sl2, tr))
    (hall : ∀ d1 ∈ tr, ∀ d2 ∈ tr, render d1 expr = render d2 expr) :
    ∃ d0, tr.head? = some d0 ∧ r = render d0 expr := by
  unfold sympy_latex at hok
  cases hcb : chooseBranch sl with
  | error e => rw [hcb] at hok; simp at hok
  | ok b =>
    rw [hcb] at hok
    cases b with
    | allEmpty =>
      simp [runBranch] at hok
      obtain ⟨hr, -, htr⟩ := hok
      subst htr
      exact ⟨ov, rfl, hr.symm⟩
    | allEqual =>
      simp only [runBranch] at hok
      cases hgd : getSettings sl "display" with
      | none => rw [hgd] at hok; simp at hok
      | some dd =>
        rw [hgd] at hok
        by_cases hov : ov = []
        · simp [hov] at hok
          obtain ⟨hr, -, htr⟩ := hok
          subst htr
          exact ⟨dd, rfl, hr.symm⟩
        · simp [hov] at hok
          obtain ⟨hr, -, htr⟩ := hok
          subst htr
          exact ⟨dictUpdate dd ov, rfl, hr.symm⟩
    | displayDiffers =>
      simp only [runBranch] at hok
      cases hgd : getSettings sl "display" with
      | none => rw [hgd] at hok; simp at hok
      | some dd =>
        rw [hgd] at hok
        cases hgt : getSettings sl "text" with
        | none => rw [hgt] at hok; simp at hok
        | some dt =>
          rw [hgt] at hok
          by_cases hov : ov = []
          · simp [hov] at hok
            obtain ⟨hr, -, htr⟩ := hok
            subst htr
            have hdt : render dd expr = render dt expr :=
              hall dd (by simp) dt (by simp)
            rw [if_pos hdt] at hr
            exact ⟨dd, rfl, hr.symm⟩
          · simp [hov] at hok
            obtain ⟨hr, -, htr⟩ := hok
            subst htr
            have hdt : render (dictUpdate dd ov) expr = render (dictUpdate dt ov) expr :=
              hall (dictUpdate dd ov) (by simp) (dictUpdate dt ov) (by simp)
            rw [if_pos hdt] at hr
            exact ⟨dictUpdate dd ov, rfl, hr.symm⟩
    | general =>
      simp only [runBranch] at hok
      cases hgd : getSettings sl "display" with
      | none => rw [hgd] at hok; simp at hok
      | some dd =>
        rw [hgd] at hok
        cases hgt : getSettings sl "text" with
        | none => rw [hgt] at hok; simp at hok
        | some dt =>
          rw [hgt] at hok
          cases hgs : getSettings sl "script" with
          | none => rw [hgs] at hok; simp at hok
          | some dsc =>
            rw [hgs] at hok
            by_cases hov : ov = []
            · cases hgss : getSettings sl "scriptscript" with
              | none => rw [hgss] at hok; simp [hov] at hok
              | some dss =>
                rw [hgss] at hok
                simp [hov] at hok
                obtain ⟨hr, -, htr⟩ := hok
                subst htr
                have hb : render dd expr = render dt expr :=
                  hall dd (by simp) dt (by simp)
                have hc : render dd expr = render dsc expr :=
                  hall dd (by simp) dsc (by simp)
                have hd2 : render dd expr = render dss expr :=
                  hall dd (by simp) dss (by simp)
                rw [if_pos ⟨hb, hc, hd2⟩] at hr
                exact ⟨dd, rfl, hr.symm⟩
            · cases hgss : getSettings sl "scripscript" with
              | none => rw [hgss] at hok; simp [hov] at hok
              | some dss =>
                rw [hgss] at hok
                simp [hov] at hok
                obtain ⟨hr, -, htr⟩ := hok
                subst htr
                have hb : render (dictUpdate dd ov) expr = render (dictUpdate dt ov) expr :=
                  hall (dictUpdate dd ov) (by simp) (dictUpdate dt ov) (by simp)
                have hc : render (dictUpdate dd ov) expr = render (dictUpdate dsc ov) expr :=
                  hall (dictUpdate dd ov) (by simp) (dictUpdate dsc ov) (by simp)
                have hd2 : render (dictUpdate dd ov) expr = render (dictUpdate dss ov) expr :=
                  hall (dictUpdate dd ov) (by simp) (dictUpdate dss ov) (by simp)
                rw [if_pos ⟨hb, hc, hd2⟩] at hr
                exact ⟨dictUpdate dd ov, rfl, hr.symm⟩

theorem c5_identical_renderings_witness :
    ∃ d0, ([displayDefault, textDefault] : List Dict).head? = some d0
      ∧ "K" = (fun (_ : Dict) (_ : Val) => "K") d0 (Val.vstr "x") :=
  c5_identical_renderings (fun _ _ => "K") defaultSL (Val.vstr "x") [] "K" defaultSL
    [displayDefault, textDefault] rfl (fun _ _ _ _ => rfl)
